import Mathlib

/-!
Verification development for the schedule module (`celery/schedules.py`):
the crontab pattern expander (`crontab_parser`), the `crontab` field-set
construction (`_expand_cronspec`), and the next-occurrence / due-check
algorithm (`remaining_estimate`, `is_due`, `__eq__`).

The Python code is shallowly embedded: pure functions become Lean
functions; raising code returns `Except PyErr` or `Option`; Python `set`
becomes `Finset ℕ`; pattern strings are processed as `List Char`;
`datetime` becomes an explicit record over a linear day count whose day 0
is a Monday.  Collaborators that live outside the embedded module
(`utils.timeutils.weekday`, `utils.timeutils.remaining`,
`utils.timeutils.timedelta_seconds`, dateutil's `relativedelta`) are
modelled from the specification, as marked on their doc comments.
-/

/-- The exception classes the embedded code can raise: `ParseException`
(the module's own error type), and Python's builtin `ValueError`,
`TypeError` and `ZeroDivisionError`. -/
inductive PyErr where
  | parseExc (msg : String)
  | valueErr (msg : String)
  | typeErr (msg : String)
  | zeroDivisionErr
deriving DecidableEq

deriving instance DecidableEq for Except

/-- Whether a raised error is the module's own `ParseException`. -/
def raisesParseExc {α : Type} (r : Except PyErr α) : Bool :=
  match r with
  | .error (.parseExc _) => true
  | _ => false

/-- A regex word character (`\w` in a bytes pattern): `[A-Za-z0-9_]`. -/
def wchar (c : Char) : Bool := c.isAlphanum || c = '_'

/-- Python `int(s)` restricted to the token domain the parser produces
(runs of `\w` characters and raw pattern parts): succeeds exactly on
non-empty all-digit strings. -/
def pyInt (s : List Char) : Option ℕ :=
  if s ≠ [] ∧ s.all Char.isDigit then
    some (s.foldl (fun a c => 10 * a + (c.toNat - 48)) 0)
  else none

/-- Modelled from the spec: the external weekday-name lookup
`weekday_index(name) -> int`, mapping case-insensitive three-letter
English abbreviations to 0..6 with Sunday = 0, and failing (lookup
error) on unknown names. -/
def weekdayIdx (s : List Char) : Option ℕ :=
  let abbr := (s.take 3).map Char.toLower
  if abbr = "sun".data then some 0
  else if abbr = "mon".data then some 1
  else if abbr = "tue".data then some 2
  else if abbr = "wed".data then some 3
  else if abbr = "thu".data then some 4
  else if abbr = "fri".data then some 5
  else if abbr = "sat".data then some 6
  else none

/-- `crontab_parser._expand_number`: a leading minus raises
`ParseException`, then the token is read as an integer, falling back to
the weekday-name lookup, whose failure is re-raised as `ValueError`. -/
def expand_number (s : List Char) : Except PyErr ℕ :=
  if s.head? = some '-' then
    .error (.parseExc "negative numbers not supported")
  else
    match pyInt s with
    | some i => .ok i
    | none =>
      match weekdayIdx s with
      | some i => .ok i
      | none =>
        .error (.valueErr ("Invalid weekday literal " ++ String.mk s ++ "."))

/-- `crontab_parser._expand_range`: with two tokens it returns Python
`range(fr, min(to + 1, max_ + 1))`; with one token, the singleton. -/
def expand_range (max_ : ℕ) (frS : List Char) (toS : Option (List Char)) :
    Except PyErr (List ℕ) := do
  let fr ← expand_number frS
  match toS with
  | some t => do
    let to_ ← expand_number t
    .ok (List.range' fr (min (to_ + 1) (max_ + 1) - fr))
  | none => .ok [fr]

/-- `crontab_parser._filter_steps`: keeps the numbers divisible by
`steps`; Python evaluates `n % steps`, so a zero step raises
`ZeroDivisionError`. -/
def filter_steps (numbers : List ℕ) (steps : ℕ) : Except PyErr (List ℕ) :=
  if steps = 0 then .error .zeroDivisionErr
  else .ok (numbers.filter (fun n => n % steps = 0))

/-- `crontab_parser._range_steps`: an absent/empty steps token raises
`ParseException "empty filter"`; otherwise the range expansion is
computed first (Python argument order), then the steps token is read
with builtin `int` (whose failure is an uncaught `ValueError`). -/
def range_steps (max_ : ℕ) (frS toS stS : List Char) :
    Except PyErr (List ℕ) :=
  if stS = [] then .error (.parseExc "empty filter")
  else do
    let ns ← expand_range max_ frS (some toS)
    match pyInt stS with
    | none =>
      .error (.valueErr ("invalid literal for int(): " ++ String.mk stS))
    | some st => filter_steps ns st

/-- `crontab_parser._star_steps`: an absent/empty steps token raises
`ParseException "empty filter"`; otherwise filters
`_expand_star() = range(max_)` by the step. -/
def star_steps (max_ : ℕ) (stS : List Char) : Except PyErr (List ℕ) :=
  if stS = [] then .error (.parseExc "empty filter")
  else
    match pyInt stS with
    | none =>
      .error (.valueErr ("invalid literal for int(): " ++ String.mk stS))
    | some st => filter_steps (List.range max_) st

/-- `crontab_parser._parse_part`: tries the four anchored-prefix regex
patterns in priority order — `(\w+?)-(\w+)/(\w+)?` (range with steps),
`(\w+?)-(\w+)` (range), `\*/(\w+)?` (star with steps), `^\*$` (star) —
and otherwise treats the whole part as a single literal.  Because `\w`
matches neither `-` nor `/`, each regex group is forced to be the
maximal `\w` run at its position, which is what is computed here. -/
def parse_part (max_ : ℕ) (part : List Char) : Except PyErr (List ℕ) :=
  let fr := part.takeWhile wchar
  let r1 := part.drop fr.length
  if fr ≠ [] ∧ r1.head? = some '-' then
    let rest := r1.tail
    let to_ := rest.takeWhile wchar
    let r2 := rest.drop to_.length
    if to_ ≠ [] then
      if r2.head? = some '/' then
        range_steps max_ fr to_ (r2.tail.takeWhile wchar)
      else
        expand_range max_ fr (some to_)
    else
      expand_range max_ part none
  else if part.head? = some '*' then
    if (part.drop 1).head? = some '/' then
      star_steps max_ ((part.drop 2).takeWhile wchar)
    else if part = ['*'] then .ok (List.range max_)
    else expand_range max_ part none
  else expand_range max_ part none

/-- `crontab_parser.parse`: splits the spec on commas, raises
`ParseException "empty part"` on an empty part, and unions the
expansions of the parts. -/
def py_parse (max_ : ℕ) (spec : String) : Except PyErr (Finset ℕ) :=
  (spec.data.splitOn ',').foldlM
    (fun acc part =>
      if part = [] then .error (.parseExc "empty part")
      else do
        let ns ← parse_part max_ part
        pure (acc ∪ ns.toFinset))
    (∅ : Finset ℕ)

/-- The duck-typed `cronspec` argument of `crontab._expand_cronspec`:
an `int`, a `basestring`, a `set`, another iterable of ints, or a value
of an unsupported type. -/
inductive Cronspec where
  | int (n : ℕ)
  | str (s : String)
  | set (s : Finset ℕ)
  | list (l : List ℕ)
  | otherType
deriving DecidableEq

/-- The type dispatch of `crontab._expand_cronspec` (before the bound
validation): an int becomes a singleton, a string is parsed, a set is
used as is, another iterable is coerced to a set, and anything else
raises `TypeError`. -/
def cronspec_base (cronspec : Cronspec) (max_ : ℕ) :
    Except PyErr (Finset ℕ) :=
  match cronspec with
  | .int n => .ok {n}
  | .str s => py_parse max_ s
  | .set s => .ok s
  | .list l => .ok l.toFinset
  | .otherType =>
    .error (.typeErr
      ("Argument cronspec needs to be of any of the following types: " ++
       "int, basestring, or an iterable type."))

/-- `crontab._expand_cronspec`: type dispatch followed by the bound
check `for number in result: if number >= max_: raise ValueError`. -/
def expand_cronspec (cronspec : Cronspec) (max_ : ℕ) :
    Except PyErr (Finset ℕ) :=
  match cronspec_base cronspec max_ with
  | .error e => .error e
  | .ok result =>
    if result.filter (fun number => max_ ≤ number) = ∅ then .ok result
    else .error (.valueErr "Invalid crontab pattern: value out of range.")

/-- A `datetime.datetime` value, over a linear day count: day 0 is a
Monday (so `days % 7` is Python's `date.weekday()`, Monday = 0). -/
structure Datetime where
  days : ℕ
  hour : ℕ
  minute : ℕ
  second : ℕ
  microsecond : ℕ
deriving DecidableEq

/-- `datetime.isoweekday()`: 1 = Monday .. 7 = Sunday. -/
def pyIsoweekday (d : Datetime) : ℕ := d.days % 7 + 1

/-- The weekday normalization at the top of `crontab.remaining_estimate`:
`isoweekday()`, with Sunday turned from 7 into 0. -/
def pyCrontabWeekday (d : Datetime) : ℕ :=
  if pyIsoweekday d = 7 then 0 else pyIsoweekday d

/-- The `dateutil.relativedelta` values built by
`crontab.remaining_estimate`: an absolute `minute` replacement, an
optional absolute `hour` replacement, a number of weeks to add, and an
optional target weekday (Monday = 0) to advance to; `second` and
`microsecond` are always replaced by 0. -/
structure Relativedelta where
  weeks : ℕ
  wkday : Option ℕ
  hour : Option ℕ
  minute : ℕ
deriving DecidableEq

/-- Modelled from the spec: applying a `relativedelta` to a datetime
(dateutil is an external collaborator).  Absolute fields are replaced,
`weeks` are added as days, and then the date is advanced to the target
weekday — staying put when already on it (`(7 - current + target) % 7`
days forward). -/
def applyRelativedelta (d : Datetime) (r : Relativedelta) : Datetime :=
  let base : Datetime :=
    ⟨d.days + 7 * r.weeks,
     (match r.hour with | none => d.hour | some x => x),
     r.minute, 0, 0⟩
  match r.wkday with
  | none => base
  | some t =>
    ⟨base.days + (7 - base.days % 7 + t) % 7,
     base.hour, base.minute, 0, 0⟩

/-- Instant as microseconds since the epoch of day 0. -/
def toMicros (d : Datetime) : ℕ :=
  (((d.days * 24 + d.hour) * 60 + d.minute) * 60 + d.second) * 1000000 +
    d.microsecond

/-- Modelled from the spec: the external duration calculator
`remaining(last_run_at, delta, now)` — the instant of the next
occurrence (`last_run_at` shifted by `delta`) minus the clock's current
reading, as a signed duration in microseconds. -/
def remaining (start : Datetime) (delta : Relativedelta) (now : Datetime) :
    ℤ :=
  (toMicros (applyRelativedelta start delta) : ℤ) - (toMicros now : ℤ)

/-- Modelled from the spec: the external `timedelta_seconds` helper —
duration in seconds, with a negative duration reduced to zero. -/
def timedelta_seconds (mus : ℤ) : ℚ :=
  if mus < 0 then 0 else (mus : ℚ) / 1000000

/-- A `crontab` schedule: the original constructor arguments, the three
expanded field sets, and the injected clock (an external capability,
modelled by the instant it returns). -/
structure Crontab where
  origMinute : Cronspec
  origHour : Cronspec
  origDayOfWeek : Cronspec
  minute : Finset ℕ
  hour : Finset ℕ
  day_of_week : Finset ℕ
  nowfun : Datetime
deriving DecidableEq

/-- `crontab.__init__`: expands `hour`, then `minute`, then
`day_of_week` (bounds 24, 60, 7), propagating the first error. -/
def mkCrontab (minute hour day_of_week : Cronspec) (nowfun : Datetime) :
    Except PyErr Crontab := do
  let h ← expand_cronspec hour 24
  let m ← expand_cronspec minute 60
  let d ← expand_cronspec day_of_week 7
  .ok ⟨minute, hour, day_of_week, m, h, d, nowfun⟩

/-- `next_day = min([day for day in self.day_of_week if day > weekday]
or self.day_of_week)`; `min` of an empty set raises, hence `none`. -/
def crontab_next_day (dow : Finset ℕ) (weekday : ℕ) : Option ℕ :=
  let gt := dow.filter (fun day => weekday < day)
  if h : gt.Nonempty then some (gt.min' h)
  else if h2 : dow.Nonempty then some (dow.min' h2)
  else none

/-- `add_week = next_day == weekday`. -/
def crontab_add_week (dow : Finset ℕ) (weekday : ℕ) : Bool :=
  crontab_next_day dow weekday == some weekday

/-- The final (later-day) branch of `crontab.remaining_estimate`:
`next_hour = min(self.hour)`, `next_day` and `add_week` as above, and
the relativedelta
`(weeks=add_week and 1 or 0, weekday=(next_day - 1) % 7, hour=next_hour,
minute=next_minute, second=0, microsecond=0)`; the weekday index is
converted from the Sunday-0 convention to dateutil's Monday-0. -/
def crontab_delta_later (c : Crontab) (weekday next_minute : ℕ) :
    Option Relativedelta :=
  if hh : c.hour.Nonempty then
    match crontab_next_day c.day_of_week weekday with
    | none => none
    | some next_day =>
      some ⟨(if crontab_add_week c.day_of_week weekday then 1 else 0),
            some ((((next_day : ℤ) - 1).emod 7).toNat),
            some (c.hour.min' hh), next_minute⟩
  else none

/-- The `else` part of `crontab.remaining_estimate` (when the task does
not fire later in the same hour): `next_minute = min(self.minute)`,
then either the same-day/later-hour branch or the later-day branch. -/
def crontab_delta_rest (c : Crontab) (last : Datetime) (weekday : ℕ) :
    Option Relativedelta :=
  if h : c.minute.Nonempty then
    if weekday ∈ c.day_of_week then
      if hh : c.hour.Nonempty then
        if last.hour < c.hour.max' hh then
          if h3 : (c.hour.filter (fun x => last.hour < x)).Nonempty then
            some ⟨0, none,
                  some ((c.hour.filter (fun x => last.hour < x)).min' h3),
                  c.minute.min' h⟩
          else none
        else crontab_delta_later c weekday (c.minute.min' h)
      else none
    else crontab_delta_later c weekday (c.minute.min' h)
  else none

/-- The relativedelta computed by `crontab.remaining_estimate`,
mirroring its branch structure (including Python's short-circuit
evaluation of `execute_this_hour`): the same-hour branch fires when the
weekday and hour match and a later minute exists in this hour. -/
def crontab_delta (c : Crontab) (last : Datetime) : Option Relativedelta :=
  if pyCrontabWeekday last ∈ c.day_of_week ∧ last.hour ∈ c.hour then
    if h : c.minute.Nonempty then
      if last.minute < c.minute.max' h then
        if h2 : (c.minute.filter (fun m => last.minute < m)).Nonempty then
          some ⟨0, none, none,
                (c.minute.filter (fun m => last.minute < m)).min' h2⟩
        else none
      else crontab_delta_rest c last (pyCrontabWeekday last)
    else none
  else crontab_delta_rest c last (pyCrontabWeekday last)

/-- The instant of the next occurrence computed by
`crontab.remaining_estimate` (before subtracting the clock reading). -/
def crontab_next_run (c : Crontab) (last : Datetime) : Option Datetime :=
  (crontab_delta c last).map (applyRelativedelta last)

/-- `crontab.remaining_estimate(last_run_at)`: the computed
relativedelta fed to `remaining(last_run_at, delta, now=self.nowfun())`,
in microseconds. -/
def crontab_remaining_estimate (c : Crontab) (last : Datetime) :
    Option ℤ :=
  (crontab_delta c last).map (fun delta => remaining last delta c.nowfun)

/-- `crontab.is_due(last_run_at)`: due iff the remaining estimate
reduces to zero seconds; when due, the estimate is recomputed with the
clock's current instant as the reference. -/
def crontab_is_due (c : Crontab) (last : Datetime) : Option (Bool × ℚ) :=
  match crontab_remaining_estimate c last with
  | none => none
  | some rem_delta =>
    if timedelta_seconds rem_delta = 0 then
      match crontab_remaining_estimate c c.nowfun with
      | none => none
      | some rd2 => some (true, timedelta_seconds rd2)
    else some (false, timedelta_seconds rem_delta)

/-- `crontab.__eq__` against another `crontab`: structural comparison of
the three expanded field sets. -/
def crontab_eq (self other : Crontab) : Bool :=
  other.day_of_week == self.day_of_week &&
  other.hour == self.hour &&
  other.minute == self.minute

/-- An interval `schedule` (only its data; used as a comparison
partner): a fixed duration in microseconds and the `relative` flag. -/
structure Schedule where
  run_every : ℤ
  relative : Bool
deriving DecidableEq

/-- A Python object a `crontab` may be compared against. -/
inductive PyObj where
  | cron (c : Crontab)
  | interval (s : Schedule)
  | timedelta (t : ℤ)
  | otherObj
deriving DecidableEq

/-- Whether a `PyObj` is a `crontab` instance. -/
def PyObj.isCron : PyObj → Bool
  | .cron _ => true
  | _ => false

/-- `crontab.__eq__(other)` in full: field-set comparison when `other`
is a `crontab`, and otherwise `other is self` — which is `False`, since
an object that is not a `crontab` instance cannot be the very object
`self`, which is one. -/
def crontab_eq_obj (self : Crontab) (other : PyObj) : Bool :=
  match other with
  | .cron o => crontab_eq self o
  | _ => false

/-- Reduction of a successful `Except` bind, for rewriting. -/
theorem exceptOkBind {α β : Type} (a : α) (f : α → Except PyErr β) :
    (Except.ok a >>= f : Except PyErr β) = f a := rfl

/-- C1: for the schedule `minute={0}, hour={0}, day_of_week={1}`
(Monday 00:00) and a clock reading equal to `last_run_at` = Monday
00:00:00, `remaining_estimate(last_run_at)` is exactly 7 days (the
following Monday 00:00). -/
theorem monday_midnight_estimate_is_seven_days :
    crontab_remaining_estimate
      ⟨.int 0, .int 0, .int 1, {0}, {0}, {1}, ⟨0, 0, 0, 0, 0⟩⟩
      ⟨0, 0, 0, 0, 0⟩ = some (7 * 24 * 60 * 60 * 1000000) := by decide

/-- C4: `parse("*/0", 60)` runs `n % 0` and raises `ZeroDivisionError`
(an arithmetic fault), not a `ParseException`, contradicting the spec's
mandated behaviour. -/
theorem star_step_zero_raises_zero_division :
    py_parse 60 "*/0" = .error PyErr.zeroDivisionErr ∧
    raisesParseExc (py_parse 60 "*/0") = false := by decide

/-- C2 counterexample: the reversed range `"5-3"` expands to the empty
set and `_expand_cronspec` accepts it — construction succeeds with an
empty field set instead of rejecting it. -/
theorem empty_expansion_accepted_at_construction :
    expand_cronspec (.str "5-3") 60 = .ok (∅ : Finset ℕ) := by decide

/-- C2 (amended): construction only validates the upper bound — every
member of a successfully constructed field set is `< bound`; emptiness
is not checked, so an empty expansion is accepted. -/
theorem expand_cronspec_members_below_bound :
    ∀ (cs : Cronspec) (max_ : ℕ) (s : Finset ℕ),
      expand_cronspec cs max_ = .ok s → ∀ v ∈ s, v < max_ := by
  intro cs max_ s h v hv
  unfold expand_cronspec at h
  split at h
  · exact absurd h (by simp)
  · split at h
    · rename_i hf
      injection h with h'
      subst h'
      have := Finset.filter_eq_empty_iff.mp hf hv
      omega
    · exact absurd h (by simp)

theorem expand_cronspec_members_below_bound_witness : (5 : ℕ) < 60 :=
  expand_cronspec_members_below_bound (.int 5) 60 {5} (by decide) 5
    (by decide)

/-- C3 counterexample: the range segment `58-60` with bound 60 expands
to `[58, 59, 60]` — the value 60, which is not `< 60`, appears in the
parser's result (the claimed interval is `[58, min(60, 59)] = [58, 59]`). -/
theorem range_expansion_reaches_bound :
    expand_range 60 "58".data (some "60".data) = .ok [58, 59, 60] ∧
    60 ∈ [58, 59, 60] ∧ ¬ 60 < 60 := by decide

/-- C3 (amended): a range segment `a-b` with exclusive bound `bound`
expands to the inclusive interval `[a, min(b, bound)]` — the upper end
is clamped to `bound` itself, not to `bound - 1`. -/
theorem range_expansion_inclusive_interval :
    ∀ (max_ : ℕ) (frS toS : List Char) (fr to_ : ℕ) (l : List ℕ) (v : ℕ),
      expand_number frS = .ok fr →
      expand_number toS = .ok to_ →
      expand_range max_ frS (some toS) = .ok l →
      (v ∈ l ↔ fr ≤ v ∧ v ≤ min to_ max_) := by
  intro max_ frS toS fr to_ l v h1 h2 h3
  unfold expand_range at h3
  rw [h1] at h3
  rw [exceptOkBind] at h3
  dsimp only at h3
  rw [h2] at h3
  rw [exceptOkBind] at h3
  injection h3 with h'
  subst h'
  rw [List.mem_range'_1]
  omega

theorem range_expansion_inclusive_interval_witness :
    (7 ∈ [5, 6, 7, 8, 9, 10] ↔ 5 ≤ 7 ∧ 7 ≤ min 10 60) :=
  range_expansion_inclusive_interval 60 "5".data "10".data 5 10
    [5, 6, 7, 8, 9, 10] 7 (by decide) (by decide) (by decide)

/-- C5 counterexample: in the later-day branch with current weekday 5
(Friday) and `day_of_week = {1}` (Monday), the chosen day 1 is not
strictly greater than 5, yet `add_week` is `False` and the computed
relativedelta carries `weeks = 0` — the claim would require the
wrap-to-next-week flag to be set. -/
theorem add_week_unset_when_chosen_day_precedes :
    crontab_next_day {1} 5 = some 1 ∧ ¬ 5 < 1 ∧
    crontab_add_week {1} 5 = false ∧
    crontab_delta
      ⟨.int 0, .int 0, .int 1, {0}, {0}, {1}, ⟨0, 0, 0, 0, 0⟩⟩
      ⟨4, 0, 0, 0, 0⟩ = some ⟨0, some 0, some 0, 0⟩ := by decide

/-- C5 (amended): the wrap-to-next-week flag is set exactly when the
chosen target weekday is *equal to* the current weekday (when it
strictly precedes, the flag stays unset and the weekday advancement
itself lands in the following week). -/
theorem add_week_iff_next_day_equals_weekday :
    ∀ (dow : Finset ℕ) (weekday next_day : ℕ),
      crontab_next_day dow weekday = some next_day →
      (crontab_add_week dow weekday = true ↔ next_day = weekday) := by
  intro dow wd nd h
  unfold crontab_add_week
  rw [h]
  simp

theorem add_week_iff_next_day_equals_weekday_witness :
    (crontab_add_week {1} 1 = true ↔ 1 = 1) :=
  add_week_iff_next_day_equals_weekday {1} 1 1 (by decide)

/-- C7 counterexample: parsing the unrecognized weekday name `"xyz"`
raises `ValueError`, not the module's `ParseException` — a different
exception class than other pattern syntax errors. -/
theorem unknown_weekday_raises_value_error :
    py_parse 7 "xyz" = .error (.valueErr "Invalid weekday literal xyz.") ∧
    raisesParseExc (py_parse 7 "xyz") = false := by decide

/-- C7 (amended): a token with no leading minus that is neither an
integer nor a known weekday name makes `_expand_number` raise
`ValueError` with the message `Invalid weekday literal <token>.`. -/
theorem unknown_weekday_literal_value_error :
    ∀ s : List Char, s.head? ≠ some '-' → pyInt s = none →
      weekdayIdx s = none →
      expand_number s =
        .error (.valueErr ("Invalid weekday literal " ++ String.mk s ++ ".")) := by
  intro s h1 h2 h3
  unfold expand_number
  rw [if_neg h1, h2, h3]

theorem unknown_weekday_literal_value_error_witness :
    expand_number "xyz".data =
      .error (.valueErr ("Invalid weekday literal " ++
        String.mk "xyz".data ++ ".")) :=
  unknown_weekday_literal_value_error "xyz".data (by decide) (by decide)
    (by decide)

/-- C10: comparing a `crontab` against any value that is not itself a
`crontab` (an interval schedule, a raw duration, anything else) yields
`False` — the identity test `other is self` cannot succeed for a
non-`crontab` object, so a crontab is never equal to a non-cron value. -/
theorem crontab_never_equals_non_crontab :
    ∀ (self : Crontab) (other : PyObj),
      other.isCron = false → crontab_eq_obj self other = false := by
  intro self o h
  cases o <;> simp_all [PyObj.isCron, crontab_eq_obj]

/-- C6: whenever `remaining_estimate(last_run_at)` computes a value,
`is_due(last_run_at)` returns `(True, r)` when that value reduces to
zero seconds — with `r` the estimate recomputed using the clock's
current instant as the reference (the time to the occurrence after the
one just triggered) — and `(False, r)` with the original estimate
otherwise. -/
theorem is_due_recomputes_remaining_when_due :
    ∀ (c : Crontab) (last : Datetime) (rd : ℤ),
      crontab_remaining_estimate c last = some rd →
      crontab_is_due c last =
        (if timedelta_seconds rd = 0 then
          (crontab_remaining_estimate c c.nowfun).map
            (fun rd2 => (true, timedelta_seconds rd2))
         else some (false, timedelta_seconds rd)) := by
  intro c last rd h
  unfold crontab_is_due
  rw [h]
  dsimp only
  by_cases h0 : timedelta_seconds rd = 0
  · rw [if_pos h0, if_pos h0]
    cases crontab_remaining_estimate c c.nowfun <;> rfl
  · rw [if_neg h0, if_neg h0]

theorem is_due_recomputes_remaining_when_due_witness :
    crontab_is_due
      ⟨.int 0, .int 0, .int 1, {0}, {0}, {1}, ⟨0, 0, 0, 0, 0⟩⟩
      ⟨0, 0, 0, 0, 0⟩ =
      (if timedelta_seconds 604800000000 = 0 then
        (crontab_remaining_estimate
          ⟨.int 0, .int 0, .int 1, {0}, {0}, {1}, ⟨0, 0, 0, 0, 0⟩⟩
          (⟨0, 0, 0, 0, 0⟩ : Datetime)).map
            (fun rd2 => (true, timedelta_seconds rd2))
       else some (false, timedelta_seconds 604800000000)) :=
  is_due_recomputes_remaining_when_due
    ⟨.int 0, .int 0, .int 1, {0}, {0}, {1}, ⟨0, 0, 0, 0, 0⟩⟩
    ⟨0, 0, 0, 0, 0⟩ 604800000000 (by decide)

/-- C9: crontab equality is structural over the three expanded field
sets — insensitive to the original textual specification and to the
injected clock — and, concretely, a schedule built from the pattern
`"*/30"` equals one built from the explicit set `{0, 30}`, whatever the
two clocks are. -/
theorem crontab_eq_iff_field_sets_eq :
    (∀ a b : Crontab, crontab_eq a b = true ↔
      (b.day_of_week = a.day_of_week ∧ b.hour = a.hour ∧
       b.minute = a.minute)) ∧
    (∀ (now1 now2 : Datetime) (c1 c2 : Crontab),
      mkCrontab (.str "*/30") (.str "*") (.str "*") now1 = .ok c1 →
      mkCrontab (.set {0, 30}) (.str "*") (.str "*") now2 = .ok c2 →
      crontab_eq c1 c2 = true) := by
  constructor
  · intro a b
    unfold crontab_eq
    simp [Bool.and_eq_true, beq_iff_eq, and_assoc]
  · intro now1 now2 c1 c2 h1 h2
    have e1 : mkCrontab (.str "*/30") (.str "*") (.str "*") now1 =
        .ok ⟨.str "*/30", .str "*", .str "*", {0, 30},
             (List.range 24).toFinset, (List.range 7).toFinset, now1⟩ := rfl
    have e2 : mkCrontab (.set {0, 30}) (.str "*") (.str "*") now2 =
        .ok ⟨.set {0, 30}, .str "*", .str "*", {0, 30},
             (List.range 24).toFinset, (List.range 7).toFinset, now2⟩ := rfl
    rw [e1] at h1
    rw [e2] at h2
    injection h1 with h1'
    injection h2 with h2'
    subst h1'
    subst h2'
    rfl

theorem crontab_eq_iff_field_sets_eq_witness :
    crontab_eq
      ⟨.str "*/30", .str "*", .str "*", {0, 30},
       (List.range 24).toFinset, (List.range 7).toFinset, ⟨0, 0, 0, 0, 0⟩⟩
      ⟨.set {0, 30}, .str "*", .str "*", {0, 30},
       (List.range 24).toFinset, (List.range 7).toFinset, ⟨1, 2, 3, 4, 5⟩⟩ =
      true :=
  crontab_eq_iff_field_sets_eq.2 ⟨0, 0, 0, 0, 0⟩ ⟨1, 2, 3, 4, 5⟩ _ _ rfl rfl

theorem crontab_never_equals_non_crontab_witness :
    crontab_eq_obj
      ⟨.int 0, .int 0, .int 1, {0}, {0}, {1}, ⟨0, 0, 0, 0, 0⟩⟩
      (.interval ⟨604800000000, false⟩) = false :=
  crontab_never_equals_non_crontab
    ⟨.int 0, .int 0, .int 1, {0}, {0}, {1}, ⟨0, 0, 0, 0, 0⟩⟩
    (.interval ⟨604800000000, false⟩) rfl

/-- The weekday normalization as a single modulus expression. -/
theorem pyCrontabWeekday_eq_mod (d : Datetime) :
    pyCrontabWeekday d = (d.days % 7 + 1) % 7 := by
  unfold pyCrontabWeekday pyIsoweekday
  split <;> omega

/-- Conversion of a Sunday-0 weekday index to dateutil's Monday-0. -/
theorem emod_sub_one_toNat (nd : ℕ) (h : nd < 7) :
    (((nd : ℤ) - 1).emod 7).toNat = (nd + 6) % 7 := by
  interval_cases nd <;> rfl

/-- `next_day` is defined and lies in the weekday set whenever the set
is non-empty. -/
theorem crontab_next_day_exists (dow : Finset ℕ) (w : ℕ)
    (hd : dow.Nonempty) :
    ∃ nd, crontab_next_day dow w = some nd ∧ nd ∈ dow := by
  unfold crontab_next_day
  dsimp only
  by_cases hg : (dow.filter (fun day => w < day)).Nonempty
  · rw [dif_pos hg]
    exact ⟨_, rfl, Finset.mem_of_mem_filter _ (Finset.min'_mem _ _)⟩
  · rw [dif_neg hg, dif_pos hd]
    exact ⟨_, rfl, Finset.min'_mem _ _⟩

/-- C8: for a schedule with minute set `{0, 30}` and any `last_run_at`
at minute 45 whose hour and weekday are in the schedule's (bounded)
field sets, the computed next occurrence has minute 0 and lies in a
strictly later hour — never at a minute within the same hour. -/
theorem carry_to_next_hour_at_minute_zero :
    ∀ (c : Crontab) (last : Datetime),
      c.minute = {0, 30} →
      last.minute = 45 →
      pyCrontabWeekday last ∈ c.day_of_week →
      last.hour ∈ c.hour →
      (∀ x ∈ c.hour, x < 24) →
      (∀ d ∈ c.day_of_week, d < 7) →
      ∃ t : Datetime, crontab_next_run c last = some t ∧ t.minute = 0 ∧
        last.days * 24 + last.hour < t.days * 24 + t.hour := by
  intro c last hm hlm hwd hhr hhb hdb
  obtain ⟨om, oh, od, mi, ho, dw, nf⟩ := c
  dsimp only at hm hwd hhr hhb hdb
  subst hm
  have hmne : ({0, 30} : Finset ℕ).Nonempty := ⟨0, by decide⟩
  have hh : ho.Nonempty := ⟨last.hour, hhr⟩
  have hdne : dw.Nonempty := ⟨pyCrontabWeekday last, hwd⟩
  have hlh24 : last.hour < 24 := hhb _ hhr
  unfold crontab_next_run crontab_delta
  dsimp only
  rw [if_pos ⟨hwd, hhr⟩, dif_pos hmne, hlm]
  rw [show ({0, 30} : Finset ℕ).max' hmne = 30 from rfl]
  rw [if_neg (by omega : ¬ (45 : ℕ) < 30)]
  unfold crontab_delta_rest
  dsimp only
  rw [dif_pos hmne, if_pos hwd, dif_pos hh]
  rw [show ({0, 30} : Finset ℕ).min' hmne = 0 from rfl]
  by_cases hcase : last.hour < ho.max' hh
  · rw [if_pos hcase]
    have hfne : (ho.filter (fun x => last.hour < x)).Nonempty :=
      ⟨ho.max' hh, Finset.mem_filter.mpr ⟨Finset.max'_mem _ _, hcase⟩⟩
    rw [dif_pos hfne]
    refine ⟨_, rfl, rfl, ?_⟩
    have hnh := Finset.mem_filter.mp
      (Finset.min'_mem (ho.filter (fun x => last.hour < x)) hfne)
    unfold applyRelativedelta
    dsimp only
    omega
  · rw [if_neg hcase]
    unfold crontab_delta_later
    dsimp only
    rw [dif_pos hh]
    obtain ⟨nd, hnd, hndmem⟩ :=
      crontab_next_day_exists dw (pyCrontabWeekday last) hdne
    rw [hnd]
    dsimp only
    refine ⟨_, rfl, rfl, ?_⟩
    have hnd7 : nd < 7 := hdb _ hndmem
    unfold applyRelativedelta
    dsimp only
    rw [emod_sub_one_toNat nd hnd7]
    by_cases haw : crontab_add_week dw (pyCrontabWeekday last) = true
    · rw [if_pos haw]
      omega
    · rw [if_neg haw]
      have hne : nd ≠ pyCrontabWeekday last := by
        intro he
        apply haw
        unfold crontab_add_week
        rw [hnd, he]
        simp
      have hweq := pyCrontabWeekday_eq_mod last
      omega

theorem carry_to_next_hour_at_minute_zero_witness :
    ∃ t : Datetime,
      crontab_next_run
        ⟨.set {0, 30}, .int 9, .int 1, {0, 30}, {9}, {1}, ⟨0, 0, 0, 0, 0⟩⟩
        ⟨0, 9, 45, 0, 0⟩ = some t ∧ t.minute = 0 ∧
      0 * 24 + 9 < t.days * 24 + t.hour :=
  carry_to_next_hour_at_minute_zero
    ⟨.set {0, 30}, .int 9, .int 1, {0, 30}, {9}, {1}, ⟨0, 0, 0, 0, 0⟩⟩
    ⟨0, 9, 45, 0, 0⟩ rfl rfl (by decide) (by decide)
    (by decide) (by decide)
